import Mathlib

/-!
Verification development for the isometric tile-map engine excerpt:
`world.cpp` (world rendering, visibility culling, selection) and
`simple_bitmap_font.cpp` (glyph atlas row packing).

Machine integers of the C++ are modelled as `Int`/`Nat`; the few
single-precision float expressions of `world::render` operate on integral
game-scale values, which single-precision arithmetic represents exactly, and
are modelled with exact fraction arithmetic (an unnormalized numerator/
denominator pair, so that the kernel can evaluate it).  Fallible pointer
dereferences are modelled by an explicit error flag.
-/

namespace Iso

/-- Fold invariant helper: a predicate preserved by every step along a list
is carried from the initial accumulator to the result of `List.foldl`. -/
theorem foldl_inv {α β : Type} (f : α → β → α) (P : α → Prop) :
    ∀ (l : List β) (s : α), (∀ s' b, b ∈ l → P s' → P (f s' b)) → P s → P (l.foldl f s)
  | [], _, _, hs => hs
  | b :: l, s, h, hs =>
    foldl_inv f P l (f s b) (fun s' b' hb' => h s' b' (List.mem_cons_of_mem _ hb'))
      (h s b (List.mem_cons_self _ _) hs)

/-- Fold localization helper: a precondition preserved by all steps holds when
some designated element `b` of the list is reached; the `b` step establishes a
postcondition, which the remaining steps preserve. -/
theorem foldl_establish {α β : Type} (f : α → β → α) (Pre Post : α → Prop)
    (hpre : ∀ s c, Pre s → Pre (f s c)) (hpost : ∀ s c, Post s → Post (f s c))
    (b : β) (hstep : ∀ s, Pre s → Post (f s b)) :
    ∀ (l : List β) (s : α), b ∈ l → Pre s → Post (l.foldl f s) := by
  intro l
  induction l with
  | nil => intro s hb; exact absurd hb (List.not_mem_nil b)
  | cons c l ih =>
    intro s hb hs
    rcases List.mem_cons.mp hb with h | h
    · subst h
      exact foldl_inv f Post l (f s b) (fun s' c' _ => hpost s' c') (hstep s hs)
    · exact ih (f s c) h (hpre s c hs)

/-! ## Glyph atlas row packing (`simple_bitmap_font.cpp`) -/

/-- Maximum atlas page width, `constexpr int max_texture_width = 2048`
(simple_bitmap_font.cpp line 119). -/
def max_texture_width : Nat := 2048

/-- Maximum atlas page height, `constexpr int max_texture_height = 2048`
(simple_bitmap_font.cpp line 119). -/
def max_texture_height : Nat := 2048

/-- The packing-relevant data of one glyph: the pixel dimensions of its
rasterized surface (`glyph.surface->w` / `glyph.surface->h`). -/
structure glyph_info where
  w : Nat
  h : Nat
deriving DecidableEq

/-- A glyph's source rectangle inside its atlas page (`glyph.srcrect`). -/
structure srcrect where
  x : Nat
  y : Nat
  w : Nat
  h : Nat
deriving DecidableEq

/-- A packed glyph: its source rectangle and its page (`glyph.texture_index`). -/
structure placement where
  rect : srcrect
  page : Nat
deriving DecidableEq

/-- The mutable state of `generate_glyph_srcrects`
(simple_bitmap_font.cpp lines 119-122), plus the outputs it accumulates:
`pages` records the `SDL_Rect{0, 0, texture_width, texture_height}` dimension
entries pushed into `font_info.textures`, and `placed` records each glyph's
assigned source rectangle and texture index, in iteration order. -/
structure pack_state where
  pages : List (Nat × Nat)
  texture_width : Nat
  texture_height : Nat
  texture_index : Nat
  x : Nat
  y : Nat
  row_height : Nat
  placed : List placement
deriving DecidableEq

/-- One iteration of the packing loop of `generate_glyph_srcrects`
(simple_bitmap_font.cpp lines 124-163), processing a single glyph. -/
def pack_step (s0 : pack_state) (g : glyph_info) : pack_state :=
  -- lines 129-130: the current row's height is the tallest glyph seen in it
  let s1 := { s0 with row_height := max s0.row_height g.h }
  -- lines 133-137: when the farthest x-extent is reached, start a new row
  let s2 := if max_texture_width ≤ s1.x + g.w then
      { s1 with x := 0, y := s1.y + s1.row_height, row_height := g.h }
    else s1
  -- lines 141-151: when the farthest y-extent is reached, record the current
  -- page's dimensions and move to the next page (row_height is not reset)
  let s3 := if max_texture_height ≤ s2.y + g.h then
      { s2 with pages := s2.pages ++ [(s2.texture_width, s2.texture_height)],
                texture_index := s2.texture_index + 1,
                texture_width := 0, texture_height := 0, x := 0, y := 0 }
    else s2
  -- lines 153-155: record the glyph's source rectangle and page index
  let s4 := { s3 with placed := s3.placed ++ [(⟨⟨s3.x, s3.y, g.w, g.h⟩, s3.texture_index⟩ : placement)] }
  -- lines 157-162: advance x, grow the page's tracked tight bounds
  { s4 with x := s4.x + g.w,
            texture_width := max s4.texture_width (s4.x + g.w),
            texture_height := max s4.texture_height (s4.y + s4.row_height) }

/-- Model of `generate_glyph_srcrects` (simple_bitmap_font.cpp lines 113-174):
row packing over the glyph set (taken in its iteration order as a list), then
the last page is recorded after the loop when it has nonzero area
(lines 166-173). -/
def generate_glyph_srcrects (glyphs : List glyph_info) : pack_state :=
  let s := glyphs.foldl pack_step ⟨[], 0, 0, 0, 0, 0, 0, []⟩
  if 0 < s.texture_width ∧ 0 < s.texture_height then
    { s with pages := s.pages ++ [(s.texture_width, s.texture_height)] }
  else s

/-- Two rectangles overlap when they share a point in the interior of both,
i.e. both coordinate intervals intersect with positive length
(SDL_HasIntersection semantics: empty rectangles intersect nothing). -/
abbrev rectsOverlap (a b : srcrect) : Prop :=
  max a.x b.x < min (a.x + a.w) (b.x + b.w) ∧ max a.y b.y < min (a.y + a.h) (b.y + b.h)

instance (a b : srcrect) : Decidable (rectsOverlap a b) := by
  unfold rectsOverlap; infer_instance

/-- A rectangle lies inside a recorded page dimension pair. -/
abbrev inPage (r : srcrect) (pg : Nat × Nat) : Prop :=
  r.x + r.w ≤ pg.1 ∧ r.y + r.h ≤ pg.2

instance (r : srcrect) (pg : Nat × Nat) : Decidable (inPage r pg) := by
  unfold inPage; infer_instance

/-- Scenario equation for `pack_step`: no row wrap, no page break. -/
theorem pack_step_plain (s : pack_state) (g : glyph_info)
    (hw : ¬ max_texture_width ≤ s.x + g.w)
    (hb : ¬ max_texture_height ≤ s.y + g.h) :
    pack_step s g =
      { s with row_height := max s.row_height g.h,
               x := s.x + g.w,
               texture_width := max s.texture_width (s.x + g.w),
               texture_height := max s.texture_height (s.y + max s.row_height g.h),
               placed := s.placed ++ [⟨⟨s.x, s.y, g.w, g.h⟩, s.texture_index⟩] } := by
  simp only [pack_step, if_neg hw, if_neg hb]

/-- Scenario equation for `pack_step`: no row wrap, page break. -/
theorem pack_step_break (s : pack_state) (g : glyph_info)
    (hw : ¬ max_texture_width ≤ s.x + g.w)
    (hb : max_texture_height ≤ s.y + g.h) :
    pack_step s g =
      { s with pages := s.pages ++ [(s.texture_width, s.texture_height)],
               texture_index := s.texture_index + 1,
               row_height := max s.row_height g.h,
               x := g.w,
               y := 0,
               texture_width := g.w,
               texture_height := max s.row_height g.h,
               placed := s.placed ++ [⟨⟨0, 0, g.w, g.h⟩, s.texture_index + 1⟩] } := by
  simp only [pack_step, if_neg hw, if_pos hb]
  simp [Nat.zero_add, Nat.max_comm]

/-- Scenario equation for `pack_step`: row wrap, no page break. -/
theorem pack_step_wrap (s : pack_state) (g : glyph_info)
    (hw : max_texture_width ≤ s.x + g.w)
    (hb : ¬ max_texture_height ≤ s.y + max s.row_height g.h + g.h) :
    pack_step s g =
      { s with row_height := g.h,
               x := g.w,
               y := s.y + max s.row_height g.h,
               texture_width := max s.texture_width g.w,
               texture_height := max s.texture_height (s.y + max s.row_height g.h + g.h),
               placed := s.placed ++
                 [⟨⟨0, s.y + max s.row_height g.h, g.w, g.h⟩, s.texture_index⟩] } := by
  simp only [pack_step, if_pos hw, if_neg hb]
  simp

/-- Scenario equation for `pack_step`: row wrap, then page break. -/
theorem pack_step_wrap_break (s : pack_state) (g : glyph_info)
    (hw : max_texture_width ≤ s.x + g.w)
    (hb : max_texture_height ≤ s.y + max s.row_height g.h + g.h) :
    pack_step s g =
      { s with pages := s.pages ++ [(s.texture_width, s.texture_height)],
               texture_index := s.texture_index + 1,
               row_height := g.h,
               x := g.w,
               y := 0,
               texture_width := g.w,
               texture_height := g.h,
               placed := s.placed ++ [⟨⟨0, 0, g.w, g.h⟩, s.texture_index + 1⟩] } := by
  simp only [pack_step, if_pos hw, if_pos hb]
  simp

/-- A glyph placed on the page still being packed: inside the tracked tight
bounds, and either in the current row (top at the cursor row, fully left of
the cursor, no taller than the row) or in a completed row above the cursor. -/
abbrev curOK (s : pack_state) (pl : placement) : Prop :=
  pl.rect.x + pl.rect.w ≤ s.texture_width ∧ pl.rect.y + pl.rect.h ≤ s.texture_height ∧
  ((pl.rect.y = s.y ∧ pl.rect.x + pl.rect.w ≤ s.x ∧ pl.rect.h ≤ s.row_height) ∨
    pl.rect.y + pl.rect.h ≤ s.y)

/-- Shelf invariant of the packing loop: the number of recorded pages equals
the page index; every placed glyph is on the current page satisfying `curOK`
or on an earlier recorded page inside its bounds; and no two glyphs of the
same page overlap. -/
abbrev PackInv (s : pack_state) : Prop :=
  s.pages.length = s.texture_index ∧
  (∀ pl ∈ s.placed,
      (pl.page = s.texture_index ∧ curOK s pl) ∨
      (pl.page < s.texture_index ∧
        ∃ pg, s.pages.get? pl.page = some pg ∧ inPage pl.rect pg)) ∧
  s.placed.Pairwise (fun a b => a.page = b.page → ¬ rectsOverlap a.rect b.rect)

/-- The packing step preserves the shelf invariant. -/
theorem pack_step_inv (s : pack_state) (g : glyph_info) (h : PackInv s) :
    PackInv (pack_step s g) := by
  obtain ⟨hlen, hpl, hpw⟩ := h
  by_cases hw : max_texture_width ≤ s.x + g.w
  · by_cases hb : max_texture_height ≤ s.y + max s.row_height g.h + g.h
    · -- row wrap, then page break
      rw [pack_step_wrap_break s g hw hb]
      refine ⟨by simp [hlen], ?_, ?_⟩
      · intro pl hmem
        rcases List.mem_append.mp hmem with hm | hm
        · rcases hpl pl hm with ⟨hpg, hb1, hb2, _⟩ | ⟨hlt, pg, hget, hin⟩
          · refine Or.inr ⟨by dsimp only; omega, (s.texture_width, s.texture_height), ?_, hb1, hb2⟩
            simp only [hpg, ← hlen]
            exact List.get?_concat_length _ _
          · refine Or.inr ⟨by dsimp only; omega, pg, ?_, hin⟩
            dsimp only
            rw [List.get?_append (by omega)]
            exact hget
        · rcases List.mem_singleton.mp hm with rfl
          exact Or.inl ⟨rfl, by simp [curOK]⟩
      · simp only [List.pairwise_append]
        refine ⟨hpw, List.pairwise_singleton _ _, ?_⟩
        intro a ha b hbm hpage
        rcases List.mem_singleton.mp hbm with rfl
        rcases hpl a ha with ⟨hpg, _⟩ | ⟨hlt, _⟩ <;> dsimp only at hpage <;> omega
    · -- row wrap, no page break
      rw [pack_step_wrap s g hw hb]
      refine ⟨hlen, ?_, ?_⟩
      · intro pl hmem
        rcases List.mem_append.mp hmem with hm | hm
        · rcases hpl pl hm with ⟨hpg, hb1, hb2, hpos⟩ | ⟨hlt, pg, hget, hin⟩
          · refine Or.inl ⟨hpg, ?_⟩
            refine ⟨le_trans hb1 (le_max_left _ _), le_trans hb2 (le_max_left _ _), Or.inr ?_⟩
            rcases hpos with ⟨h1, _, h3⟩ | h1 <;> dsimp only <;> omega
          · exact Or.inr ⟨hlt, pg, hget, hin⟩
        · rcases List.mem_singleton.mp hm with rfl
          refine Or.inl ⟨rfl, ?_, ?_, Or.inl ⟨rfl, by simp, le_refl _⟩⟩
          · simp only
            omega
          · simp only
            omega
      · simp only [List.pairwise_append]
        refine ⟨hpw, List.pairwise_singleton _ _, ?_⟩
        intro a ha b hbm hpage hov
        rcases List.mem_singleton.mp hbm with rfl
        rcases hpl a ha with ⟨hpg, _, _, hpos⟩ | ⟨hlt, _⟩
        · rcases hov with ⟨_, hovy⟩
          dsimp only at hovy
          rcases hpos with ⟨h1, _, h3⟩ | h1 <;> omega
        · dsimp only at hpage
          omega
  · by_cases hb : max_texture_height ≤ s.y + g.h
    · -- no row wrap, page break
      rw [pack_step_break s g hw hb]
      refine ⟨by simp [hlen], ?_, ?_⟩
      · intro pl hmem
        rcases List.mem_append.mp hmem with hm | hm
        · rcases hpl pl hm with ⟨hpg, hb1, hb2, _⟩ | ⟨hlt, pg, hget, hin⟩
          · refine Or.inr ⟨by dsimp only; omega, (s.texture_width, s.texture_height), ?_, hb1, hb2⟩
            simp only [hpg, ← hlen]
            exact List.get?_concat_length _ _
          · refine Or.inr ⟨by dsimp only; omega, pg, ?_, hin⟩
            dsimp only
            rw [List.get?_append (by omega)]
            exact hget
        · rcases List.mem_singleton.mp hm with rfl
          refine Or.inl ⟨rfl, ?_, ?_, Or.inl ⟨rfl, by simp, by simp⟩⟩
          · simp only
            omega
          · simp only
            omega
      · simp only [List.pairwise_append]
        refine ⟨hpw, List.pairwise_singleton _ _, ?_⟩
        intro a ha b hbm hpage
        rcases List.mem_singleton.mp hbm with rfl
        rcases hpl a ha with ⟨hpg, _⟩ | ⟨hlt, _⟩ <;> dsimp only at hpage <;> omega
    · -- no row wrap, no page break
      rw [pack_step_plain s g hw hb]
      refine ⟨hlen, ?_, ?_⟩
      · intro pl hmem
        rcases List.mem_append.mp hmem with hm | hm
        · rcases hpl pl hm with ⟨hpg, hb1, hb2, hpos⟩ | ⟨hlt, pg, hget, hin⟩
          · refine Or.inl ⟨hpg, le_trans hb1 (le_max_left _ _), le_trans hb2 (le_max_left _ _), ?_⟩
            rcases hpos with ⟨h1, h2, h3⟩ | h1
            · exact Or.inl ⟨h1, by dsimp only; omega, by dsimp only; omega⟩
            · exact Or.inr h1
          · exact Or.inr ⟨hlt, pg, hget, hin⟩
        · rcases List.mem_singleton.mp hm with rfl
          refine Or.inl ⟨rfl, ?_, ?_, Or.inl ⟨rfl, by simp, by simp⟩⟩
          · simp only
            omega
          · simp only
            omega
      · simp only [List.pairwise_append]
        refine ⟨hpw, List.pairwise_singleton _ _, ?_⟩
        intro a ha b hbm hpage hov
        rcases List.mem_singleton.mp hbm with rfl
        rcases hpl a ha with ⟨hpg, _, _, hpos⟩ | ⟨hlt, _⟩
        · rcases hov with ⟨hovx, hovy⟩
          dsimp only at hovx hovy
          rcases hpos with ⟨h1, h2, h3⟩ | h1 <;> omega
        · dsimp only at hpage
          omega

/-- The packing step records exactly one placement per glyph. -/
theorem pack_step_placed_len (s : pack_state) (g : glyph_info) :
    (pack_step s g).placed.length = s.placed.length + 1 := by
  simp only [pack_step]
  split <;> split <;> simp

/-- The packing fold records exactly one placement per glyph. -/
theorem pack_foldl_placed_len : ∀ (gs : List glyph_info) (s : pack_state),
    (gs.foldl pack_step s).placed.length = s.placed.length + gs.length
  | [], s => rfl
  | g :: gs, s => by
    rw [List.foldl_cons, pack_foldl_placed_len gs (pack_step s g), pack_step_placed_len,
      List.length_cons]
    omega

/-- After packing a glyph of positive dimensions, the tracked tight bounds of
the page being packed are positive. -/
theorem pack_step_pos (s : pack_state) (g : glyph_info)
    (hgw : 0 < g.w) (hgh : 0 < g.h) :
    0 < (pack_step s g).texture_width ∧ 0 < (pack_step s g).texture_height := by
  simp only [pack_step]
  split <;> split <;> dsimp only <;> omega

/-- Bounds invariant of the packing loop, for glyphs no larger than the page
maximum: the tracked and recorded page dimensions never exceed the maxima, a
row below the top of a page always ends strictly above the maximum height, on
the first page the tracked height stays strictly below the maximum, and the
first recorded page is strictly lower than the maximum height. -/
abbrev C7Inv (s : pack_state) : Prop :=
  s.pages.length = s.texture_index ∧
  s.row_height ≤ max_texture_height ∧
  s.texture_width ≤ max_texture_width ∧
  s.texture_height ≤ max_texture_height ∧
  (∀ pg ∈ s.pages, pg.1 ≤ max_texture_width ∧ pg.2 ≤ max_texture_height) ∧
  (0 < s.y → s.y + s.row_height < max_texture_height) ∧
  (s.texture_index = 0 →
    s.texture_height < max_texture_height ∧ s.row_height < max_texture_height) ∧
  (∀ pg, s.pages.get? 0 = some pg → pg.2 < max_texture_height)

/-- The packing step preserves the bounds invariant. -/
theorem pack_step_c7 (s : pack_state) (g : glyph_info)
    (hgw : g.w ≤ max_texture_width) (hgh : g.h ≤ max_texture_height)
    (h : C7Inv s) : C7Inv (pack_step s g) := by
  obtain ⟨hlen, hrh, htw, hth, hpgs, hM, hN, hfirst⟩ := h
  have hfirst2 : ∀ pg : Nat × Nat,
      (s.pages ++ [(s.texture_width, s.texture_height)]).get? 0 = some pg →
      pg.2 < max_texture_height := by
    intro pg hget
    cases hp : s.pages with
    | nil =>
      rw [hp] at hget
      have h0 : s.texture_index = 0 := by rw [hp] at hlen; simpa using hlen.symm
      have hpg2 : (s.texture_width, s.texture_height) = pg := by simpa using hget
      rw [← hpg2]
      exact (hN h0).1
    | cons q l =>
      rw [hp] at hget
      simp at hget
      apply hfirst
      rw [hp]
      simpa using hget
  by_cases hw : max_texture_width ≤ s.x + g.w
  · by_cases hb : max_texture_height ≤ s.y + max s.row_height g.h + g.h
    · -- row wrap, then page break
      rw [pack_step_wrap_break s g hw hb]
      refine ⟨by simp [hlen], by dsimp only; omega, by dsimp only; omega,
        by dsimp only; omega, ?_, by dsimp only; omega, by dsimp only; omega, ?_⟩
      · intro pg hpg
        rcases List.mem_append.mp hpg with hm | hm
        · exact hpgs pg hm
        · rcases List.mem_singleton.mp hm with rfl
          exact ⟨htw, hth⟩
      · exact hfirst2
    · -- row wrap, no page break
      rw [pack_step_wrap s g hw hb]
      refine ⟨hlen, by dsimp only; omega, by dsimp only; omega, ?_,
        hpgs, by dsimp only; omega, ?_, hfirst⟩
      · dsimp only
        omega
      · dsimp only
        intro h0
        have := hN h0
        omega
  · by_cases hb : max_texture_height ≤ s.y + g.h
    · -- no row wrap, page break
      rw [pack_step_break s g hw hb]
      refine ⟨by simp [hlen], by dsimp only; omega, by dsimp only; omega,
        by dsimp only; omega, ?_, by dsimp only; omega, by dsimp only; omega, ?_⟩
      · intro pg hpg
        rcases List.mem_append.mp hpg with hm | hm
        · exact hpgs pg hm
        · rcases List.mem_singleton.mp hm with rfl
          exact ⟨htw, hth⟩
      · exact hfirst2
    · -- no row wrap, no page break
      rw [pack_step_plain s g hw hb]
      rcases Nat.eq_zero_or_pos s.y with hy | hy
      · refine ⟨hlen, by dsimp only; omega, by dsimp only; omega, ?_,
          hpgs, by dsimp only; omega, ?_, hfirst⟩
        · dsimp only
          omega
        · dsimp only
          intro h0
          have := hN h0
          omega
      · have hM2 := hM hy
        refine ⟨hlen, by dsimp only; omega, by dsimp only; omega, ?_,
          hpgs, by dsimp only; omega, ?_, hfirst⟩
        · dsimp only
          omega
        · dsimp only
          intro h0
          have := hN h0
          omega

/-- The empty initial state of the packing loop. -/
def pack_init : pack_state := ⟨[], 0, 0, 0, 0, 0, 0, []⟩

/-- The shelf invariant holds after folding the packing step over any glyphs. -/
theorem pack_foldl_packinv (glyphs : List glyph_info) :
    PackInv (glyphs.foldl pack_step pack_init) :=
  foldl_inv pack_step PackInv glyphs pack_init
    (fun s g _ h => pack_step_inv s g h) ⟨rfl, by simp [pack_init], by simp [pack_init]⟩

/-- After the packing fold, either nothing was placed or the tracked tight
bounds of the last page are positive (for glyphs of positive dimensions). -/
theorem pack_foldl_pos (glyphs : List glyph_info)
    (hpos : ∀ g ∈ glyphs, 0 < g.w ∧ 0 < g.h) :
    (glyphs.foldl pack_step pack_init).placed.length = 0 ∨
      (0 < (glyphs.foldl pack_step pack_init).texture_width ∧
        0 < (glyphs.foldl pack_step pack_init).texture_height) :=
  foldl_inv pack_step
    (fun s => s.placed.length = 0 ∨ (0 < s.texture_width ∧ 0 < s.texture_height))
    glyphs pack_init
    (fun s g hg _ => Or.inr (pack_step_pos s g (hpos g hg).1 (hpos g hg).2))
    (Or.inl rfl)

/-- C6 (amended): provided every glyph has positive width and height, the
packing routine assigns each glyph exactly one placement whose page index
refers to a produced page, with a source rectangle fully inside that page's
recorded bounds, and no two glyphs of the same page have overlapping source
rectangles.  (Without the positivity proviso the page-existence part fails,
see the counterexample.) -/
theorem c6_glyph_packing_amended (glyphs : List glyph_info)
    (hpos : ∀ g ∈ glyphs, 0 < g.w ∧ 0 < g.h) :
    (generate_glyph_srcrects glyphs).placed.length = glyphs.length ∧
    (∀ pl ∈ (generate_glyph_srcrects glyphs).placed,
      ∃ pg, (generate_glyph_srcrects glyphs).pages.get? pl.page = some pg ∧
        inPage pl.rect pg) ∧
    (generate_glyph_srcrects glyphs).placed.Pairwise
      (fun a b => a.page = b.page → ¬ rectsOverlap a.rect b.rect) := by
  obtain ⟨hlen, hpl, hpw⟩ := pack_foldl_packinv glyphs
  have hQ : (glyphs.foldl pack_step pack_init).placed.length = glyphs.length := by
    simpa [pack_init] using pack_foldl_placed_len glyphs pack_init
  by_cases hpush : 0 < (glyphs.foldl pack_step pack_init).texture_width ∧
      0 < (glyphs.foldl pack_step pack_init).texture_height
  · have hg : generate_glyph_srcrects glyphs =
        { glyphs.foldl pack_step pack_init with
          pages := (glyphs.foldl pack_step pack_init).pages ++
            [((glyphs.foldl pack_step pack_init).texture_width,
              (glyphs.foldl pack_step pack_init).texture_height)] } := by
      simp only [generate_glyph_srcrects, pack_init]
      rw [if_pos]
      exact hpush
    rw [hg]
    refine ⟨hQ, ?_, hpw⟩
    intro pl hmem
    rcases hpl pl hmem with ⟨hpg, hb1, hb2, _⟩ | ⟨hlt, pg, hget, hin⟩
    · refine ⟨((glyphs.foldl pack_step pack_init).texture_width,
        (glyphs.foldl pack_step pack_init).texture_height), ?_, hb1, hb2⟩
      dsimp only
      rw [hpg, ← hlen]
      exact List.get?_concat_length _ _
    · refine ⟨pg, ?_, hin⟩
      dsimp only
      rw [List.get?_append (by omega)]
      exact hget
  · have hg : generate_glyph_srcrects glyphs = glyphs.foldl pack_step pack_init := by
      simp only [generate_glyph_srcrects, pack_init]
      rw [if_neg]
      exact hpush
    rw [hg]
    have hz : (glyphs.foldl pack_step pack_init).placed.length = 0 := by
      rcases pack_foldl_pos glyphs hpos with h | h
      · exact h
      · exact absurd h hpush
    have hnil : (glyphs.foldl pack_step pack_init).placed = [] :=
      List.length_eq_zero.mp hz
    refine ⟨by omega, ?_, ?_⟩
    · rw [hnil]
      intro pl hmem
      simp at hmem
    · rw [hnil]
      exact List.Pairwise.nil

/-- C6 counterexample input: a single glyph whose rasterized surface has zero
width and height. -/
def c6_cex_glyphs : List glyph_info := [⟨0, 0⟩]

/-- C6 counterexample: for the input set consisting of one zero-sized glyph,
the packing routine records a placement whose page index refers to no produced
page (no page is ever pushed because the tracked area stays zero), so the
claim that every glyph is assigned to a produced page is false as stated. -/
theorem c6_counterexample :
    ∃ pl ∈ (generate_glyph_srcrects c6_cex_glyphs).placed,
      (generate_glyph_srcrects c6_cex_glyphs).pages.get? pl.page = none := by
  decide

/-- C6 witness input: two glyphs of positive dimensions. -/
def c6_wit_glyphs : List glyph_info := [⟨10, 12⟩, ⟨8, 5⟩]

/-- C6 witness: the amended packing theorem applied at a concrete glyph set. -/
theorem c6_witness :
    (∀ g ∈ c6_wit_glyphs, 0 < g.w ∧ 0 < g.h) ∧
    ((generate_glyph_srcrects c6_wit_glyphs).placed.length = c6_wit_glyphs.length ∧
    (∀ pl ∈ (generate_glyph_srcrects c6_wit_glyphs).placed,
      ∃ pg, (generate_glyph_srcrects c6_wit_glyphs).pages.get? pl.page = some pg ∧
        inPage pl.rect pg) ∧
    (generate_glyph_srcrects c6_wit_glyphs).placed.Pairwise
      (fun a b => a.page = b.page → ¬ rectsOverlap a.rect b.rect)) :=
  ⟨by decide, c6_glyph_packing_amended c6_wit_glyphs (by decide)⟩

/-- C7: for glyphs no larger than the page maximum, no recorded page dimension
exceeds 2048, and when the glyphs split across two or more pages the first
page's recorded height is strictly less than 2048. -/
theorem c7_page_size_bounds (glyphs : List glyph_info)
    (hdim : ∀ g ∈ glyphs, g.w ≤ max_texture_width ∧ g.h ≤ max_texture_height) :
    (∀ pg ∈ (generate_glyph_srcrects glyphs).pages,
        pg.1 ≤ max_texture_width ∧ pg.2 ≤ max_texture_height) ∧
    (2 ≤ (generate_glyph_srcrects glyphs).pages.length →
      ∀ pg, (generate_glyph_srcrects glyphs).pages.get? 0 = some pg →
        pg.2 < max_texture_height) := by
  have hInv : C7Inv (glyphs.foldl pack_step pack_init) :=
    foldl_inv pack_step C7Inv glyphs pack_init
      (fun s g hg h => pack_step_c7 s g (hdim g hg).1 (hdim g hg).2 h)
      ⟨rfl, by simp [pack_init, max_texture_height], by simp [pack_init, max_texture_width],
        by simp [pack_init, max_texture_height], by simp [pack_init], by simp [pack_init],
        by simp [pack_init, max_texture_height], by intro pg h; simp [pack_init] at h⟩
  obtain ⟨hlen, hrh, htw, hth, hpgs, hM, hN, hfirst⟩ := hInv
  by_cases hpush : 0 < (glyphs.foldl pack_step pack_init).texture_width ∧
      0 < (glyphs.foldl pack_step pack_init).texture_height
  · have hg : generate_glyph_srcrects glyphs =
        { glyphs.foldl pack_step pack_init with
          pages := (glyphs.foldl pack_step pack_init).pages ++
            [((glyphs.foldl pack_step pack_init).texture_width,
              (glyphs.foldl pack_step pack_init).texture_height)] } := by
      simp only [generate_glyph_srcrects, pack_init]
      rw [if_pos]
      exact hpush
    rw [hg]
    constructor
    · intro pg hpg
      rcases List.mem_append.mp hpg with hm | hm
      · exact hpgs pg hm
      · rcases List.mem_singleton.mp hm with rfl
        exact ⟨htw, hth⟩
    · intro _ pg hget
      dsimp only at hget
      cases hp : (glyphs.foldl pack_step pack_init).pages with
      | nil =>
        rw [hp] at hget
        have h0 : (glyphs.foldl pack_step pack_init).texture_index = 0 := by
          rw [hp] at hlen
          simpa using hlen.symm
        have hpg2 : ((glyphs.foldl pack_step pack_init).texture_width,
            (glyphs.foldl pack_step pack_init).texture_height) = pg := by
          simpa using hget
        rw [← hpg2]
        exact (hN h0).1
      | cons q l =>
        rw [hp] at hget
        simp at hget
        apply hfirst
        rw [hp]
        simpa using hget
  · have hg : generate_glyph_srcrects glyphs = glyphs.foldl pack_step pack_init := by
      simp only [generate_glyph_srcrects, pack_init]
      rw [if_neg]
      exact hpush
    rw [hg]
    exact ⟨hpgs, fun _ => hfirst⟩

/-- C7 witness input: three glyphs wide enough to force a row wrap each and
tall enough that their cumulative height splits onto a second page. -/
def c7_wit_glyphs : List glyph_info := [⟨2040, 1000⟩, ⟨2040, 1000⟩, ⟨2040, 1000⟩]

/-- C7 witness: the page-bounds theorem applied at a concrete glyph set that
produces two pages, the first of recorded height 2000 < 2048. -/
theorem c7_witness :
    (∀ g ∈ c7_wit_glyphs, g.w ≤ max_texture_width ∧ g.h ≤ max_texture_height) ∧
    (generate_glyph_srcrects c7_wit_glyphs).pages.length = 2 ∧
    ((∀ pg ∈ (generate_glyph_srcrects c7_wit_glyphs).pages,
        pg.1 ≤ max_texture_width ∧ pg.2 ≤ max_texture_height) ∧
    (2 ≤ (generate_glyph_srcrects c7_wit_glyphs).pages.length →
      ∀ pg, (generate_glyph_srcrects c7_wit_glyphs).pages.get? 0 = some pg →
        pg.2 < max_texture_height)) :=
  ⟨by decide, by decide, c7_page_size_bounds c7_wit_glyphs (by decide)⟩

/-! ## World rendering (`world.cpp`) -/

/-- Machine `std::numeric_limits<int>::max()`, the sentinel component of the
selection (world.cpp lines 35-38, 204-205, 215-216). -/
def INT_MAX : Int := 2147483647

/-- An image registered in the tile map, identified by its image id
(`tile_image::get_image_id`; textures and rectangles belong to the rendering
collaborator, draw calls are logged by image id). -/
structure tile_image where
  image_id : Nat
deriving DecidableEq

/-- Modelled from the spec: a tile of the grid (the tile class is not part of
the excerpt; spec section 3: per-layer optional image-id, absent means
empty). -/
structure tile where
  images : Nat → Option Nat

/-- Modelled from the spec: `tile::has_image(layer_id)`. -/
def tile.has_image (t : tile) (l : Nat) : Bool := (t.images l).isSome

/-- Modelled from the spec: `tile::get_image_id(layer_id)` (consulted by the
render loop only under `has_image`). -/
def tile.get_image_id (t : tile) (l : Nat) : Nat := (t.images l).getD 0

/-- Modelled from the spec: `tile::set_image_id(layer_id, image_id)`. -/
def tile.set_image_id (t : tile) (l : Nat) (i : Nat) : tile :=
  ⟨fun l2 => if l2 = l then some i else t.images l2⟩

/-- Modelled from the spec: the tile_map collaborator (not part of the
excerpt; spec sections 3 and 6): grid dimensions in tiles, tile pixel
dimensions, the ordered layer list represented by its length `num_layers`
(`get_layers().size()`), the grid lookup `tiles` (`get_tile`, absent when the
tile is missing), the image registry `images` (`get_image`, absent on failed
lookup), the per-layer default image pool `default_images`
(`layer_has_default_images` is its non-emptiness,
`get_random_layer_default_image` picks from it at random), and the optional
selection image (`has_selection_image` / `get_selection_image`). -/
structure tile_map where
  map_width : Nat
  map_height : Nat
  tile_width : Nat
  tile_height : Nat
  num_layers : Nat
  tiles : Int → Int → Option tile
  images : Nat → Option tile_image
  default_images : Nat → List Nat
  selection_image : Option Nat

/-- Modelled from the spec: the camera collaborator (not part of the excerpt;
spec section 3): viewport origin and size in pixels, current scroll position
in tile units, enabled flag.  Scroll positions are modelled at integral
values (the C++ stores floats; the render loop's float tile counters are
exact on integral values of game magnitude). -/
structure camera where
  viewport_x : Int
  viewport_y : Int
  width : Nat
  height : Nat
  current_x : Int
  current_y : Int
  enabled : Bool
deriving DecidableEq

/-- The world (world.cpp): its tile map, camera list, selected tile
(`selected_world_tile`) and `update_called` flag.  Game objects only invoke
their own render callbacks (world.cpp lines 183-186) and are outside this
model. -/
structure world where
  map : tile_map
  cameras : List camera
  selected : Int × Int
  update_called : Bool

/-- world::get_main_camera (world.cpp lines 46-54): the first enabled camera
of the list, if any. -/
def world.get_main_camera (w : world) : Option camera :=
  w.cameras.find? (fun c => c.enabled)

/-- An exact, unnormalized fraction (numerator over denominator), used to
model the single-precision float expression of world::render lines 87-95
exactly: its operands are integral and of game magnitude, hence exactly
representable; the final quotient is modelled as the exact rational value
(single-precision rounding of the quotient can differ from the exact value
by less than one part in 2^23, which does not affect the claims checked
here). -/
structure frac where
  num : Int
  den : Int
deriving DecidableEq

/-- Embed an integer as a fraction. -/
def frac.ofInt (z : Int) : frac := ⟨z, 1⟩

/-- Fraction addition (no normalization). -/
def frac.add (a b : frac) : frac := ⟨a.num * b.den + b.num * a.den, a.den * b.den⟩

/-- Fraction division (no normalization). -/
def frac.div (a b : frac) : frac := ⟨a.num * b.den, a.den * b.num⟩

/-- Truncation toward zero: the effect of `static_cast<unsigned>` on a
nonnegative float value. -/
def frac.trunc (f : frac) : Int := f.num.tdiv f.den

/-- Ceiling of a fraction with positive denominator (used only to state the
spec's formula). -/
def frac.ceil (f : frac) : Int := -((-f.num) / f.den)

/-- Model of world.cpp lines 87-90 and 97: `static_cast<unsigned>(
camera->get_current_x() + static_cast<float>(camera->get_width() +
map->get_tile_width()) / (map->get_tile_width() / 2.0f) + 1)`, then
`std::min` against `map->get_map_width()`. -/
def max_tiles_horiz (c : camera) (m : tile_map) : Nat :=
  let halfTiles := (frac.ofInt ((c.width : Int) + (m.tile_width : Int))).div
      ((frac.ofInt (m.tile_width : Int)).div (frac.ofInt 2))
  min (((frac.ofInt c.current_x).add halfTiles).add (frac.ofInt 1)).trunc.toNat m.map_width

/-- Model of world.cpp lines 92-95 and 98: the vertical analogue of
`max_tiles_horiz`. -/
def max_tiles_vert (c : camera) (m : tile_map) : Nat :=
  let halfTiles := (frac.ofInt ((c.height : Int) + (m.tile_height : Int))).div
      ((frac.ofInt (m.tile_height : Int)).div (frac.ofInt 2))
  min (((frac.ofInt c.current_y).add halfTiles).add (frac.ofInt 1)).trunc.toNat m.map_height

/-- Modelled from the spec: the visibility bound exactly as spec section 4.2
step 4 words it, `scroll_position + ceil((viewport_dimension +
tile_dimension) / (tile_dimension/2)) + 1`, clamped to map bounds (horizontal
direction). -/
def spec_max_tiles_horiz (c : camera) (m : tile_map) : Nat :=
  let q := (frac.ofInt ((c.width : Int) + (m.tile_width : Int))).div
      ((frac.ofInt (m.tile_width : Int)).div (frac.ofInt 2))
  min (c.current_x + q.ceil + 1).toNat m.map_width

/-- Modelled from the spec: the vertical analogue of
`spec_max_tiles_horiz`. -/
def spec_max_tiles_vert (c : camera) (m : tile_map) : Nat :=
  let q := (frac.ofInt ((c.height : Int) + (m.tile_height : Int))).div
      ((frac.ofInt (m.tile_height : Int)).div (frac.ofInt 2))
  min (c.current_y + q.ceil + 1).toNat m.map_height

/-- The tile x coordinates iterated by the render loop (world.cpp line 102):
`tile_x` runs from the camera scroll x while `tile_x < max_tiles_horiz`. -/
def iterated_xs (c : camera) (m : tile_map) : List Int :=
  (List.range ((max_tiles_horiz c m : Int) - c.current_x).toNat).map
    (fun i => c.current_x + Int.ofNat i)

/-- The tile y coordinates iterated by the render loop (world.cpp line 100). -/
def iterated_ys (c : camera) (m : tile_map) : List Int :=
  (List.range ((max_tiles_vert c m : Int) - c.current_y).toNat).map
    (fun i => c.current_y + Int.ofNat i)

/-- The tile points iterated by the nested render loops (world.cpp lines
100-103), row-major: y outer, x inner. -/
def iterated_points (c : camera) (m : tile_map) : List (Int × Int) :=
  (iterated_ys c m).flatMap (fun y => (iterated_xs c m).map (fun x => (x, y)))

/-- Observable events of one world::render call: tile accesses (`get_tile`,
world.cpp line 106), tile draw calls (lines 137-145, logged as tile point,
layer, image id), selection overlay draws (lines 166-174), and an error flag
modelling a null-pointer dereference crash (see `layer_step`). -/
structure render_log where
  accessed : List (Int × Int)
  draws : List ((Int × Int) × Nat × Nat)
  selection_draws : List (Int × Int)
  err : Bool
deriving DecidableEq

/-- The state threaded through the render loops: the (shared, mutable) tile
map, the current selection, the count of random numbers consumed, and the
log. -/
structure render_state where
  m : tile_map
  sel : Int × Int
  rcount : Nat
  log : render_log

/-- `current_tile && current_tile->has_image(layer_id)` (world.cpp line 114),
for a possibly null tile pointer. -/
def opt_has_image (ct : Option tile) (l : Nat) : Bool :=
  match ct with
  | some t => t.has_image l
  | none => false

/-- World.cpp lines 131-177, the tail of one layer iteration after image
resolution: the draw call when an image was resolved and the tile carries an
image for the layer (line 135), the hit test updating the selection (lines
151-156; `hit p` abstracts `transform.tile_hittest_by_viewport` of the
tile's screen position against the mouse position - transform and input are
collaborators outside the excerpt and are fixed during one render call, so
the test is a function of the tile point), and the layer-0 selection overlay
(lines 158-177). -/
def after_resolve (hit : Int × Int → Bool) (p : Int × Int) (l : Nat)
    (s : render_state) (ct : Option tile) (ci : Option tile_image) (isSel : Bool) :
    render_state × Option tile × Bool :=
  let s1 := if ci.isSome && opt_has_image ct l then
      { s with log := { s.log with
          draws := s.log.draws ++ [(p, l, (ci.map tile_image.image_id).getD 0)] } }
    else s
  let hitp := hit p
  let s2 := if hitp then { s1 with sel := p } else s1
  let isSel2 := if hitp then true else isSel
  let s3 := if l == 0 && isSel2 && s2.m.selection_image.isSome then
      { s2 with log := { s2.log with
          selection_draws := s2.log.selection_draws ++ [p] } }
    else s2
  (s3, ct, isSel2)

/-- One layer iteration of world::render (world.cpp lines 112-178) for the
tile at point `p`.  `rng` abstracts the random source behind
`get_random_layer_default_image` (indexed by how many random draws happened
so far).  The error flag is set where the C++ dereferences a null pointer:
in the default-image branch (lines 119-124) `current_tile->set_image_id(...)`
runs even when `current_tile` is null, and `current_image->get_image_id()`
even when the `get_image` lookup failed. -/
def layer_step (hit : Int × Int → Bool) (rng : Nat → Nat) (p : Int × Int) (l : Nat)
    (acc : render_state × Option tile × Bool) : render_state × Option tile × Bool :=
  let s := acc.1
  let ct := acc.2.1
  let isSel := acc.2.2
  if s.log.err then acc
  else if opt_has_image ct l then
    -- lines 114-118: the tile has an explicit image, fetch it
    after_resolve hit p l s ct (s.m.images ((ct.getD ⟨fun _ => none⟩).get_image_id l)) isSel
  else if (s.m.default_images l).isEmpty = false then
    -- lines 119-125: pick a random default image and cache it onto the tile
    let pool := s.m.default_images l
    let rid := pool.getD (rng s.rcount % pool.length) 0
    let s1 := { s with rcount := s.rcount + 1 }
    match s1.m.images rid, ct with
    | some img, some t =>
      let t2 := t.set_image_id l img.image_id
      let m2 := { s1.m with
        tiles := fun a b => if a = p.1 ∧ b = p.2 then some t2 else s1.m.tiles a b }
      after_resolve hit p l { s1 with m := m2 } (some t2) (some img) isSel
    | _, _ => ({ s1 with log := { s1.log with err := true } }, ct, isSel)
  else
    -- line 128: the tile is definitely empty, continue (no hit test, no draw)
    acc

/-- The layer loop of world::render (world.cpp line 112) over the layer ids
0 .. num_layers - 1. -/
def layers_go (hit : Int × Int → Bool) (rng : Nat → Nat) (p : Int × Int)
    (ls : List Nat) (acc : render_state × Option tile × Bool) :
    render_state × Option tile × Bool :=
  ls.foldl (fun a l => layer_step hit rng p l a) acc

/-- One tile iteration of world::render (world.cpp lines 104-178): log the
`get_tile` access, then run every layer.  After a crash no further work
happens. -/
def tile_step (hit : Int × Int → Bool) (rng : Nat → Nat) (layers : Nat)
    (s : render_state) (p : Int × Int) : render_state :=
  if s.log.err then s
  else
    let s1 := { s with log := { s.log with accessed := s.log.accessed ++ [p] } }
    (layers_go hit rng p (List.range layers) (s1, s1.m.tiles p.1 p.2, false)).1

/-- Model of world::render (world.cpp lines 64-194).  Resolves the main
camera (immediate return without one, line 75), iterates the visible tile
region and its layers, and clears `update_called` (line 193) - unless the
run crashed, in which case the state at the crash point is reported with the
flag untouched.  Rendering backend calls (clip rectangle, draws, alpha
changes) are logged, not performed; game object callbacks (lines 183-186) do
not touch the world state modelled here. -/
def world.render (w : world) (hit : Int × Int → Bool) (rng : Nat → Nat) :
    world × render_log :=
  match w.get_main_camera with
  | none => (w, ⟨[], [], [], false⟩)
  | some c =>
    let s0 : render_state := ⟨w.map, w.selected, 0, ⟨[], [], [], false⟩⟩
    let s := (iterated_points c w.map).foldl (tile_step hit rng w.map.num_layers) s0
    (if s.log.err then { w with map := s.m, selected := s.sel }
     else { w with map := s.m, selected := s.sel, update_called := false }, s.log)

/-- world::set_selection (world.cpp lines 196-199). -/
def world.set_selection (w : world) (p : Int × Int) : world := { w with selected := p }

/-- world::has_selection (world.cpp lines 201-206):
`selected_world_tile.x != INT_MAX && selected_world_tile.y != INT_MAX`. -/
def world.has_selection (w : world) : Bool :=
  w.selected.1 != INT_MAX && w.selected.2 != INT_MAX

/-- world::get_selection (world.cpp lines 208-211). -/
def world.get_selection (w : world) : Int × Int := w.selected

/-- world::reset_selection (world.cpp lines 213-217): both components back to
the sentinel. -/
def world.reset_selection (w : world) : world :=
  { w with selected := (INT_MAX, INT_MAX) }

/-- The image id the map's tile at point `p` carries for layer `l`, when the
tile exists and has one. -/
def imageAt (w : world) (p : Int × Int) (l : Nat) : Option Nat :=
  (w.map.tiles p.1 p.2).bind (fun t => t.images l)

/-- Every tile map field except the tile grid, preserved by rendering. -/
abbrev sameShape (m m2 : tile_map) : Prop :=
  m2.map_width = m.map_width ∧ m2.map_height = m.map_height ∧
  m2.tile_width = m.tile_width ∧ m2.tile_height = m.tile_height ∧
  m2.num_layers = m.num_layers ∧ m2.images = m.images ∧
  m2.default_images = m.default_images ∧ m2.selection_image = m.selection_image

theorem sameShape_refl (m : tile_map) : sameShape m m :=
  ⟨rfl, rfl, rfl, rfl, rfl, rfl, rfl, rfl⟩

theorem sameShape_trans {m1 m2 m3 : tile_map}
    (h : sameShape m1 m2) (h2 : sameShape m2 m3) : sameShape m1 m3 := by
  obtain ⟨a1, a2, a3, a4, a5, a6, a7, a8⟩ := h
  obtain ⟨b1, b2, b3, b4, b5, b6, b7, b8⟩ := h2
  exact ⟨b1.trans a1, b2.trans a2, b3.trans a3, b4.trans a4,
    b5.trans a5, b6.trans a6, b7.trans a7, b8.trans a8⟩

theorem after_resolve_m (hit : Int × Int → Bool) (p : Int × Int) (l : Nat)
    (s : render_state) (ct : Option tile) (ci : Option tile_image) (isSel : Bool) :
    (after_resolve hit p l s ct ci isSel).1.m = s.m := by
  simp only [after_resolve]
  split <;> split <;> split <;> rfl

theorem after_resolve_ct (hit : Int × Int → Bool) (p : Int × Int) (l : Nat)
    (s : render_state) (ct : Option tile) (ci : Option tile_image) (isSel : Bool) :
    (after_resolve hit p l s ct ci isSel).2.1 = ct := by
  simp only [after_resolve]

theorem after_resolve_err (hit : Int × Int → Bool) (p : Int × Int) (l : Nat)
    (s : render_state) (ct : Option tile) (ci : Option tile_image) (isSel : Bool) :
    (after_resolve hit p l s ct ci isSel).1.log.err = s.log.err := by
  simp only [after_resolve]
  split <;> split <;> split <;> rfl

theorem after_resolve_accessed (hit : Int × Int → Bool) (p : Int × Int) (l : Nat)
    (s : render_state) (ct : Option tile) (ci : Option tile_image) (isSel : Bool) :
    (after_resolve hit p l s ct ci isSel).1.log.accessed = s.log.accessed := by
  simp only [after_resolve]
  split <;> split <;> split <;> rfl

theorem after_resolve_sel (hit : Int × Int → Bool) (p : Int × Int) (l : Nat)
    (s : render_state) (ct : Option tile) (ci : Option tile_image) (isSel : Bool) :
    (after_resolve hit p l s ct ci isSel).1.sel = s.sel ∨
      (hit p = true ∧ (after_resolve hit p l s ct ci isSel).1.sel = p) := by
  simp only [after_resolve]
  by_cases hh : hit p
  · right
    refine ⟨hh, ?_⟩
    simp only [hh]
    split_ifs <;> simp_all
  · left
    rw [Bool.not_eq_true] at hh
    simp only [hh]
    split_ifs <;> simp_all

theorem layer_step_err_id (hit : Int × Int → Bool) (rng : Nat → Nat)
    (p : Int × Int) (l : Nat) (acc : render_state × Option tile × Bool)
    (h : acc.1.log.err = true) :
    layer_step hit rng p l acc = acc := by
  simp only [layer_step, h]
  rfl

theorem layer_step_accessed (hit : Int × Int → Bool) (rng : Nat → Nat)
    (p : Int × Int) (l : Nat) (acc : render_state × Option tile × Bool) :
    (layer_step hit rng p l acc).1.log.accessed = acc.1.log.accessed := by
  simp only [layer_step]
  split
  · rfl
  · split
    · rw [after_resolve_accessed]
    · split
      · split
        · rw [after_resolve_accessed]
        · rfl
      · rfl

theorem layer_step_shape (hit : Int × Int → Bool) (rng : Nat → Nat)
    (p : Int × Int) (l : Nat) (acc : render_state × Option tile × Bool) :
    sameShape acc.1.m (layer_step hit rng p l acc).1.m := by
  simp only [layer_step]
  split
  · exact sameShape_refl _
  · split
    · rw [after_resolve_m]
      exact sameShape_refl _
    · split
      · split
        · rw [after_resolve_m]
          exact ⟨rfl, rfl, rfl, rfl, rfl, rfl, rfl, rfl⟩
        · exact sameShape_refl _
      · exact sameShape_refl _

theorem layer_step_presence (hit : Int × Int → Bool) (rng : Nat → Nat)
    (p : Int × Int) (l : Nat) (acc : render_state × Option tile × Bool)
    (x y : Int) (h : (acc.1.m.tiles x y).isSome = true) :
    ((layer_step hit rng p l acc).1.m.tiles x y).isSome = true := by
  simp only [layer_step]
  split
  · exact h
  · split
    · rw [after_resolve_m]
      exact h
    · split
      · split
        · rw [after_resolve_m]
          dsimp only
          split
          · rfl
          · exact h
        · exact h
      · exact h

theorem layer_step_err_mono (hit : Int × Int → Bool) (rng : Nat → Nat)
    (p : Int × Int) (l : Nat) (acc : render_state × Option tile × Bool)
    (h : acc.1.log.err = true) :
    (layer_step hit rng p l acc).1.log.err = true := by
  rw [layer_step_err_id hit rng p l acc h]
  exact h

theorem layer_step_sel (hit : Int × Int → Bool) (rng : Nat → Nat)
    (p : Int × Int) (l : Nat) (acc : render_state × Option tile × Bool) :
    (layer_step hit rng p l acc).1.sel = acc.1.sel ∨
      (hit p = true ∧ (layer_step hit rng p l acc).1.sel = p) := by
  simp only [layer_step]
  split
  · exact Or.inl rfl
  · split
    · exact after_resolve_sel hit p l _ _ _ _
    · split
      · split
        · exact after_resolve_sel hit p l _ _ _ _
        · exact Or.inl rfl
      · exact Or.inl rfl

/-- The image id the tile of map `m` at grid position `(x, y)` carries for
layer `l`, when the tile exists and has one. -/
def tilesImageAt (m : tile_map) (x y : Int) (l : Nat) : Option Nat :=
  (m.tiles x y).bind (fun t => t.images l)

/-- While the layer loop runs on the tile at `p`, the threaded
`current_tile` stays in sync with the map's tile at `p`, and every image id
already recorded anywhere in the map is left in place (the default-image
branch only writes to a layer that had none). -/
theorem layer_step_sync (hit : Int × Int → Bool) (rng : Nat → Nat)
    (p : Int × Int) (l : Nat) (acc : render_state × Option tile × Bool)
    (hsync : acc.2.1 = acc.1.m.tiles p.1 p.2) :
    (layer_step hit rng p l acc).2.1 =
      (layer_step hit rng p l acc).1.m.tiles p.1 p.2 ∧
    (∀ x y l2 i, tilesImageAt acc.1.m x y l2 = some i →
      tilesImageAt (layer_step hit rng p l acc).1.m x y l2 = some i) := by
  simp only [layer_step]
  split
  · exact ⟨hsync, fun x y l2 i h => h⟩
  · split
    · rw [after_resolve_m, after_resolve_ct]
      exact ⟨hsync, fun x y l2 i h => h⟩
    · split
      · split
        · rename_i img t himg hct
          have hguard := ‹¬ opt_has_image acc.2.1 l = true›
          have htl : t.images l = none := by
            cases h2 : t.images l with
            | none => rfl
            | some v =>
              rw [hct] at hguard
              simp [opt_has_image, tile.has_image, h2] at hguard
          constructor
          · rw [after_resolve_m, after_resolve_ct]
            simp
          · intro x y l2 i h
            rw [after_resolve_m]
            rw [hct] at hsync
            by_cases hxy : x = p.1 ∧ y = p.2
            · obtain ⟨hx, hy⟩ := hxy
              subst hx
              subst hy
              simp only [tilesImageAt] at h
              rw [← hsync] at h
              simp only [Option.some_bind] at h
              by_cases hl2 : l2 = l
              · rw [hl2, htl] at h
                simp at h
              · simpa [tilesImageAt, tile.set_image_id, hl2] using h
            · simp only [tilesImageAt] at h
              simpa [tilesImageAt, hxy] using h
        · exact ⟨hsync, fun x y l2 i h => h⟩
      · exact ⟨hsync, fun x y l2 i h => h⟩

/-- Running the layer `l` iteration on a present tile of a layer with a
non-empty default pool either crashes the render or leaves the tile with an
image id for layer `l` (world.cpp lines 114-125: the explicit image is kept,
or a default image id is cached onto the tile). -/
theorem layer_step_establish (hit : Int × Int → Bool) (rng : Nat → Nat)
    (p : Int × Int) (l : Nat) (acc : render_state × Option tile × Bool)
    (hsync : acc.2.1 = acc.1.m.tiles p.1 p.2)
    (hct : (acc.2.1).isSome = true)
    (hdef : (acc.1.m.default_images l).isEmpty = false) :
    (layer_step hit rng p l acc).1.log.err = true ∨
      (tilesImageAt (layer_step hit rng p l acc).1.m p.1 p.2 l).isSome = true := by
  simp only [layer_step]
  split
  · left
    assumption
  · split
    · right
      rw [after_resolve_m]
      obtain ⟨t, ht⟩ := Option.isSome_iff_exists.mp hct
      have hasimg := ‹opt_has_image acc.2.1 l = true›
      rw [ht] at hsync hasimg
      simp only [opt_has_image, tile.has_image] at hasimg
      simp only [tilesImageAt, ← hsync, Option.some_bind]
      exact hasimg
    · split
      · rename_i img t himg hct2
        right
        rw [after_resolve_m]
        simp [tilesImageAt, tile.set_image_id]
      · left
        rfl

theorem layers_go_accessed (hit : Int × Int → Bool) (rng : Nat → Nat)
    (p : Int × Int) (ls : List Nat) (acc : render_state × Option tile × Bool) :
    (layers_go hit rng p ls acc).1.log.accessed = acc.1.log.accessed :=
  foldl_inv (fun a l => layer_step hit rng p l a)
    (fun a => a.1.log.accessed = acc.1.log.accessed) ls acc
    (fun a l _ h => by dsimp only; rw [layer_step_accessed]; exact h) rfl

theorem layers_go_err_mono (hit : Int × Int → Bool) (rng : Nat → Nat)
    (p : Int × Int) (ls : List Nat) (acc : render_state × Option tile × Bool)
    (h : acc.1.log.err = true) :
    (layers_go hit rng p ls acc).1.log.err = true :=
  foldl_inv (fun a l => layer_step hit rng p l a)
    (fun a => a.1.log.err = true) ls acc
    (fun a l _ hh => layer_step_err_mono hit rng p l a hh) h

theorem layers_go_sel (hit : Int × Int → Bool) (rng : Nat → Nat)
    (p : Int × Int) (ls : List Nat) (acc : render_state × Option tile × Bool) :
    (layers_go hit rng p ls acc).1.sel = acc.1.sel ∨
      (hit p = true ∧ (layers_go hit rng p ls acc).1.sel = p) :=
  foldl_inv (fun a l => layer_step hit rng p l a)
    (fun a => a.1.sel = acc.1.sel ∨ (hit p = true ∧ a.1.sel = p)) ls acc
    (fun a l _ hh => by
      rcases layer_step_sel hit rng p l a with h1 | h1
      · rw [h1]
        exact hh
      · exact Or.inr h1)
    (Or.inl rfl)

theorem layers_go_shape (hit : Int × Int → Bool) (rng : Nat → Nat)
    (p : Int × Int) (ls : List Nat) (acc : render_state × Option tile × Bool) :
    sameShape acc.1.m (layers_go hit rng p ls acc).1.m :=
  foldl_inv (fun a l => layer_step hit rng p l a)
    (fun a => sameShape acc.1.m a.1.m) ls acc
    (fun a l _ hh => sameShape_trans hh (layer_step_shape hit rng p l a))
    (sameShape_refl _)

theorem layers_go_presence (hit : Int × Int → Bool) (rng : Nat → Nat)
    (p : Int × Int) (ls : List Nat) (acc : render_state × Option tile × Bool)
    (x y : Int) (h : (acc.1.m.tiles x y).isSome = true) :
    ((layers_go hit rng p ls acc).1.m.tiles x y).isSome = true :=
  foldl_inv (fun a l => layer_step hit rng p l a)
    (fun a => (a.1.m.tiles x y).isSome = true) ls acc
    (fun a l _ hh => layer_step_presence hit rng p l a x y hh) h

theorem tile_step_err_id (hit : Int × Int → Bool) (rng : Nat → Nat) (L : Nat)
    (s : render_state) (p : Int × Int) (h : s.log.err = true) :
    tile_step hit rng L s p = s := by
  simp only [tile_step, h]
  rfl

theorem tile_step_err_mono (hit : Int × Int → Bool) (rng : Nat → Nat) (L : Nat)
    (s : render_state) (p : Int × Int) (h : s.log.err = true) :
    (tile_step hit rng L s p).log.err = true := by
  rw [tile_step_err_id hit rng L s p h]
  exact h

theorem tile_step_accessed (hit : Int × Int → Bool) (rng : Nat → Nat) (L : Nat)
    (s : render_state) (p : Int × Int) :
    (tile_step hit rng L s p).log.accessed = s.log.accessed ∨
      (tile_step hit rng L s p).log.accessed = s.log.accessed ++ [p] := by
  simp only [tile_step]
  split
  · exact Or.inl rfl
  · right
    rw [layers_go_accessed]

theorem tile_step_sel (hit : Int × Int → Bool) (rng : Nat → Nat) (L : Nat)
    (s : render_state) (p : Int × Int) :
    (tile_step hit rng L s p).sel = s.sel ∨
      (hit p = true ∧ (tile_step hit rng L s p).sel = p) := by
  simp only [tile_step]
  split
  · exact Or.inl rfl
  · exact layers_go_sel hit rng p (List.range L) _

theorem tile_step_shape (hit : Int × Int → Bool) (rng : Nat → Nat) (L : Nat)
    (s : render_state) (p : Int × Int) :
    sameShape s.m (tile_step hit rng L s p).m := by
  simp only [tile_step]
  split
  · exact sameShape_refl _
  · exact layers_go_shape hit rng p (List.range L) _

theorem tile_step_presence (hit : Int × Int → Bool) (rng : Nat → Nat) (L : Nat)
    (s : render_state) (p : Int × Int) (x y : Int)
    (h : (s.m.tiles x y).isSome = true) :
    ((tile_step hit rng L s p).m.tiles x y).isSome = true := by
  simp only [tile_step]
  split
  · exact h
  · exact layers_go_presence hit rng p (List.range L) _ x y h

theorem tile_step_images_mono (hit : Int × Int → Bool) (rng : Nat → Nat) (L : Nat)
    (s : render_state) (p : Int × Int) (x y : Int) (l2 i : Nat)
    (h : tilesImageAt s.m x y l2 = some i) :
    tilesImageAt (tile_step hit rng L s p).m x y l2 = some i := by
  simp only [tile_step, layers_go]
  split
  · exact h
  · refine (foldl_inv (fun a l => layer_step hit rng p l a)
      (fun a => a.2.1 = a.1.m.tiles p.1 p.2 ∧
        ∀ x2 y2 l3 i2, tilesImageAt s.m x2 y2 l3 = some i2 →
          tilesImageAt a.1.m x2 y2 l3 = some i2)
      (List.range L) _ (fun a l _ hP => ?_) ⟨rfl, fun _ _ _ _ hh => hh⟩).2 x y l2 i h
    exact ⟨(layer_step_sync hit rng p l a hP.1).1,
      fun x2 y2 l3 i2 hi =>
        (layer_step_sync hit rng p l a hP.1).2 x2 y2 l3 i2 (hP.2 x2 y2 l3 i2 hi)⟩

theorem tile_step_establish (hit : Int × Int → Bool) (rng : Nat → Nat) (L : Nat)
    (s : render_state) (p : Int × Int) (l : Nat) (hl : l < L)
    (hp : (s.m.tiles p.1 p.2).isSome = true)
    (hdef : (s.m.default_images l).isEmpty = false) :
    (tile_step hit rng L s p).log.err = true ∨
      (tilesImageAt (tile_step hit rng L s p).m p.1 p.2 l).isSome = true := by
  simp only [tile_step, layers_go]
  split
  · left
    assumption
  · refine (foldl_establish (fun a l2 => layer_step hit rng p l2 a)
      (fun a => a.2.1 = a.1.m.tiles p.1 p.2 ∧ (a.1.m.tiles p.1 p.2).isSome = true ∧
        (a.1.m.default_images l).isEmpty = false)
      (fun a => a.2.1 = a.1.m.tiles p.1 p.2 ∧
        (a.1.log.err = true ∨ (tilesImageAt a.1.m p.1 p.2 l).isSome = true))
      (fun a c hP => ?_) (fun a c hP => ?_) l (fun a hP => ?_)
      (List.range L) _ (List.mem_range.mpr hl) ⟨rfl, hp, hdef⟩).2
    · refine ⟨(layer_step_sync hit rng p c a hP.1).1,
        layer_step_presence hit rng p c a p.1 p.2 hP.2.1, ?_⟩
      have hsh := (layer_step_shape hit rng p c a).2.2.2.2.2.2.1
      rw [hsh]
      exact hP.2.2
    · refine ⟨(layer_step_sync hit rng p c a hP.1).1, ?_⟩
      rcases hP.2 with he | hi
      · exact Or.inl (layer_step_err_mono hit rng p c a he)
      · right
        obtain ⟨i, hi2⟩ := Option.isSome_iff_exists.mp hi
        have := (layer_step_sync hit rng p c a hP.1).2 p.1 p.2 l i hi2
        rw [this]
        rfl
    · refine ⟨(layer_step_sync hit rng p l a hP.1).1, ?_⟩
      refine layer_step_establish hit rng p l a hP.1 ?_ hP.2.2
      rw [hP.1]
      exact hP.2.1

/-- The loop state of world::render when a main camera was resolved. -/
def render_fold (w : world) (hit : Int × Int → Bool) (rng : Nat → Nat)
    (c : camera) : render_state :=
  (iterated_points c w.map).foldl (tile_step hit rng w.map.num_layers)
    ⟨w.map, w.selected, 0, ⟨[], [], [], false⟩⟩

theorem render_none (w : world) (hit : Int × Int → Bool) (rng : Nat → Nat)
    (hc : w.get_main_camera = none) :
    world.render w hit rng = (w, ⟨[], [], [], false⟩) := by
  simp only [world.render, hc]

theorem render_some (w : world) (hit : Int × Int → Bool) (rng : Nat → Nat)
    (c : camera) (hc : w.get_main_camera = some c) :
    world.render w hit rng =
      (if (render_fold w hit rng c).log.err then
        { w with map := (render_fold w hit rng c).m,
                 selected := (render_fold w hit rng c).sel }
       else
        { w with map := (render_fold w hit rng c).m,
                 selected := (render_fold w hit rng c).sel,
                 update_called := false },
       (render_fold w hit rng c).log) := by
  simp only [world.render, hc, render_fold]

theorem mem_iterated_xs {c : camera} {m : tile_map} {x : Int}
    (h : x ∈ iterated_xs c m) :
    c.current_x ≤ x ∧ x < (max_tiles_horiz c m : Int) := by
  simp only [iterated_xs, List.mem_map, List.mem_range, Int.ofNat_eq_natCast] at h
  obtain ⟨i, hi, rfl⟩ := h
  omega

theorem mem_iterated_ys {c : camera} {m : tile_map} {y : Int}
    (h : y ∈ iterated_ys c m) :
    c.current_y ≤ y ∧ y < (max_tiles_vert c m : Int) := by
  simp only [iterated_ys, List.mem_map, List.mem_range, Int.ofNat_eq_natCast] at h
  obtain ⟨i, hi, rfl⟩ := h
  omega

/-- Bounds of an iterated tile point: at least the scroll position, strictly
below the (clamped) maxima. -/
theorem mem_iterated_points {c : camera} {m : tile_map} {p : Int × Int}
    (h : p ∈ iterated_points c m) :
    (c.current_x ≤ p.1 ∧ p.1 < (max_tiles_horiz c m : Int)) ∧
    (c.current_y ≤ p.2 ∧ p.2 < (max_tiles_vert c m : Int)) := by
  simp only [iterated_points, List.mem_flatMap, List.mem_map] at h
  obtain ⟨y, hy, x, hx, rfl⟩ := h
  exact ⟨mem_iterated_xs hx, mem_iterated_ys hy⟩

theorem max_tiles_horiz_le (c : camera) (m : tile_map) :
    max_tiles_horiz c m ≤ m.map_width :=
  Nat.min_le_right _ _

theorem max_tiles_vert_le (c : camera) (m : tile_map) :
    max_tiles_vert c m ≤ m.map_height :=
  Nat.min_le_right _ _

/-- When layer `l` has no default images, its layer iteration leaves the map
and the tile pointer untouched, and can change the selection only when the
tile has an explicit image for `l` (world.cpp line 128: an empty tile is
skipped by `continue` before the hit test). -/
theorem layer_step_nodefaults (hit : Int × Int → Bool) (rng : Nat → Nat)
    (p : Int × Int) (l : Nat) (acc : render_state × Option tile × Bool)
    (hsync : acc.2.1 = acc.1.m.tiles p.1 p.2)
    (hnd : acc.1.m.default_images l = []) :
    (layer_step hit rng p l acc).1.m = acc.1.m ∧
    (layer_step hit rng p l acc).2.1 = acc.2.1 ∧
    ((layer_step hit rng p l acc).1.sel = acc.1.sel ∨
      (hit p = true ∧ (layer_step hit rng p l acc).1.sel = p ∧
        ∃ t, acc.1.m.tiles p.1 p.2 = some t ∧ (t.images l).isSome = true)) := by
  simp only [layer_step]
  split
  · exact ⟨rfl, rfl, Or.inl rfl⟩
  · split
    · refine ⟨after_resolve_m hit p l _ _ _ _, after_resolve_ct hit p l _ _ _ _, ?_⟩
      rcases after_resolve_sel hit p l acc.1 acc.2.1 _ acc.2.2 with h | h
      · exact Or.inl h
      · right
        refine ⟨h.1, h.2, ?_⟩
        have hguard := ‹opt_has_image acc.2.1 l = true›
        cases hcc : acc.2.1 with
        | none => rw [hcc] at hguard; simp [opt_has_image] at hguard
        | some t =>
          rw [hcc] at hguard hsync
          simp only [opt_has_image, tile.has_image] at hguard
          exact ⟨t, hsync.symm, hguard⟩
    · simp only [hnd, List.isEmpty_nil]
      exact ⟨rfl, rfl, Or.inl rfl⟩

/-- Tile-level version of `layer_step_nodefaults`: when no layer has default
images, the tile iteration leaves the map untouched and can change the
selection only to its own point and only when the tile carries an explicit
image on some layer below the layer count. -/
theorem tile_step_nodefaults (hit : Int × Int → Bool) (rng : Nat → Nat)
    (L : Nat) (s : render_state) (p : Int × Int)
    (hnd : ∀ l2, s.m.default_images l2 = []) :
    (tile_step hit rng L s p).m = s.m ∧
    ((tile_step hit rng L s p).sel = s.sel ∨
      (hit p = true ∧ (tile_step hit rng L s p).sel = p ∧
        ∃ l, l < L ∧ ∃ t, s.m.tiles p.1 p.2 = some t ∧
          (t.images l).isSome = true)) := by
  simp only [tile_step, layers_go]
  split
  · exact ⟨rfl, Or.inl rfl⟩
  · have key := foldl_inv (fun a l => layer_step hit rng p l a)
      (fun a => a.1.m = s.m ∧ a.2.1 = a.1.m.tiles p.1 p.2 ∧
        (a.1.sel = s.sel ∨
          (hit p = true ∧ a.1.sel = p ∧
            ∃ l, l < L ∧ ∃ t, s.m.tiles p.1 p.2 = some t ∧
              (t.images l).isSome = true)))
      (List.range L)
      ({ s with log := { s.log with accessed := s.log.accessed ++ [p] } },
        s.m.tiles p.1 p.2, false)
      (fun a l hl hP => ?_) ⟨rfl, rfl, Or.inl rfl⟩
    · exact ⟨key.1, key.2.2⟩
    · have hnd2 : a.1.m.default_images l = [] := by rw [hP.1]; exact hnd l
      obtain ⟨hm, hct, hsel⟩ := layer_step_nodefaults hit rng p l a hP.2.1 hnd2
      refine ⟨by rw [hm, hP.1], by rw [hct, hm]; exact hP.2.1, ?_⟩
      rcases hsel with h | h
      · rw [h]
        exact hP.2.2
      · right
        refine ⟨h.1, h.2.1, ?_⟩
        obtain ⟨t, ht, hti⟩ := h.2.2
        rw [hP.1] at ht
        exact ⟨l, List.mem_range.mp hl, t, ht, hti⟩

/-- Arithmetic of the visibility bound: truncating
`scroll + (viewport + tile) / (tile / 2) + 1` toward zero equals
`scroll + 2*(viewport + tile) / tile + 1` with floor division, for a
nonnegative scroll and a positive tile dimension. -/
theorem trunc_formula (cx : Int) (W T : Nat) (hx : 0 ≤ cx) (hT : 1 ≤ T) :
    (((frac.ofInt cx).add
      ((frac.ofInt ((W : Int) + (T : Int))).div
        ((frac.ofInt (T : Int)).div (frac.ofInt 2)))).add
          (frac.ofInt 1)).trunc.toNat =
    cx.toNat + (2 * (W + T)) / T + 1 := by
  have hT0 : (T : Int) ≠ 0 := by omega
  have hmod := Nat.div_add_mod (2 * (W + T)) T
  have hrlt : (2 * (W + T)) % T < T := Nat.mod_lt _ (by omega)
  simp only [frac.trunc, frac.add, frac.div, frac.ofInt, one_mul, mul_one]
  have hnum : cx * (T : Int) + ((W : Int) + (T : Int)) * 2 + (T : Int) =
      (((2 * (W + T)) % T : Nat) : Int) +
        (cx + ((2 * (W + T)) / T : Nat) + 1) * (T : Int) := by
    have h2 : (((2 * (W + T)) / T : Nat) : Int) * (T : Int) +
        (((2 * (W + T)) % T : Nat) : Int) = 2 * ((W : Int) + (T : Int)) := by
      push_cast
      push_cast at hmod
      linarith [hmod]
    linarith [h2]
  rw [hnum]
  have hr0 : (0 : Int) ≤ (((2 * (W + T)) % T : Nat) : Int) := by positivity
  have htd : ((((2 * (W + T)) % T : Nat) : Int) +
      (cx + ((2 * (W + T)) / T : Nat) + 1) * (T : Int)).tdiv (T : Int) =
      cx + ((2 * (W + T)) / T : Nat) + 1 := by
    rw [Int.tdiv_eq_ediv (by positivity) (by omega)]
    rw [Int.add_mul_ediv_right _ _ hT0]
    rw [Int.ediv_eq_zero_of_lt hr0 (by omega)]
    omega
  rw [htd]
  clear htd hnum hmod hrlt hr0 hT0
  have hknn : (0 : Int) ≤ ((2 * (W + T) : Nat) : Int) / ((T : Nat) : Int) :=
    Int.ediv_nonneg (by positivity) (by positivity)
  omega

/-- C1 (amended): for a nonnegative camera scroll position, every tile index
accessed through the map during world::render lies within
[0, map_width) x [0, map_height).  The iterated region is clamped to the map
bounds at the upper end only (world.cpp lines 97-98); the lower end starts at
the scroll position itself, so a negative scroll accesses out-of-bounds
indices (see the counterexample). -/
theorem c1_render_in_bounds (w : world) (hit : Int × Int → Bool)
    (rng : Nat → Nat) (c : camera) (hc : w.get_main_camera = some c)
    (hx : 0 ≤ c.current_x) (hy : 0 ≤ c.current_y) :
    ∀ q ∈ (world.render w hit rng).2.accessed,
      0 ≤ q.1 ∧ q.1 < (w.map.map_width : Int) ∧
      0 ≤ q.2 ∧ q.2 < (w.map.map_height : Int) := by
  rw [render_some w hit rng c hc]
  dsimp only
  unfold render_fold
  refine foldl_inv (tile_step hit rng w.map.num_layers)
    (fun s => ∀ q ∈ s.log.accessed,
      0 ≤ q.1 ∧ q.1 < (w.map.map_width : Int) ∧
      0 ≤ q.2 ∧ q.2 < (w.map.map_height : Int))
    (iterated_points c w.map) _ (fun s p hp hq => ?_) ?_
  · rcases tile_step_accessed hit rng w.map.num_layers s p with h1 | h1 <;> rw [h1]
    · exact hq
    · intro q hqq
      rcases List.mem_append.mp hqq with hm | hm
      · exact hq q hm
      · rcases List.mem_singleton.mp hm with rfl
        obtain ⟨⟨ha1, ha2⟩, ha3, ha4⟩ := mem_iterated_points hp
        have hbx := max_tiles_horiz_le c w.map
        have hby := max_tiles_vert_le c w.map
        refine ⟨by omega, by omega, by omega, by omega⟩
  · intro q hq
    simp at hq

/-- C9 (amended): when an enabled main camera exists and the render run does
not crash, world::render clears `update_called` (world.cpp line 193).  With
no main camera the early return at line 75 leaves the flag untouched (see the
counterexample). -/
theorem c9_update_cleared (w : world) (hit : Int × Int → Bool) (rng : Nat → Nat)
    (c : camera) (hc : w.get_main_camera = some c)
    (he : (world.render w hit rng).2.err = false) :
    (world.render w hit rng).1.update_called = false := by
  rw [render_some w hit rng c hc] at he ⊢
  dsimp only at he ⊢
  simp [he]

/-- C10: world::render never clears the selection - when the hit test
succeeds at no point, the selection is returned unchanged; and any selection
render writes is an iterated tile point, never the sentinel pair (given the
documented invariant that the grid is smaller than the sentinel). -/
theorem c10_render_selection (w : world) (hit : Int × Int → Bool) (rng : Nat → Nat) :
    ((∀ p, hit p = false) → (world.render w hit rng).1.selected = w.selected) ∧
    ((w.map.map_width : Int) ≤ INT_MAX →
      (world.render w hit rng).1.selected = w.selected ∨
      ∃ c p, w.get_main_camera = some c ∧ p ∈ iterated_points c w.map ∧
        hit p = true ∧ (world.render w hit rng).1.selected = p ∧
        p ≠ ((INT_MAX, INT_MAX) : Int × Int)) := by
  cases hc : w.get_main_camera with
  | none =>
    rw [render_none w hit rng hc]
    exact ⟨fun _ => rfl, fun _ => Or.inl rfl⟩
  | some c =>
    have hsel : (world.render w hit rng).1.selected = (render_fold w hit rng c).sel := by
      rw [render_some w hit rng c hc]
      dsimp only
      split <;> rfl
    have key : (render_fold w hit rng c).sel = w.selected ∨
        ∃ p ∈ iterated_points c w.map, hit p = true ∧
          (render_fold w hit rng c).sel = p := by
      unfold render_fold
      refine foldl_inv (tile_step hit rng w.map.num_layers)
        (fun s => s.sel = w.selected ∨
          ∃ p ∈ iterated_points c w.map, hit p = true ∧ s.sel = p)
        (iterated_points c w.map) _ (fun s p hp hs => ?_) (Or.inl rfl)
      rcases tile_step_sel hit rng w.map.num_layers s p with h1 | h1
      · rw [h1]
        exact hs
      · exact Or.inr ⟨p, hp, h1.1, h1.2⟩
    constructor
    · intro hall
      rcases key with h | ⟨p, _, hhit, _⟩
      · rw [hsel, h]
      · rw [hall p] at hhit
        cases hhit
    · intro hmw
      rcases key with h | ⟨p, hp, hhit, hsp⟩
      · exact Or.inl (by rw [hsel, h])
      · right
        refine ⟨c, p, rfl, hp, hhit, by rw [hsel, hsp], ?_⟩
        obtain ⟨⟨_, hlt⟩, _⟩ := mem_iterated_points hp
        have hble := max_tiles_horiz_le c w.map
        have hIM : INT_MAX = (2147483647 : Int) := rfl
        intro heq
        rw [heq] at hlt
        dsimp only at hlt
        omega

/-- C2: once the map records an image id for a tile and layer - as happens
when the default-image branch caches its pick onto the tile (world.cpp line
124) - every subsequent world::render leaves that id unchanged, so the same
image id is resolved with no re-randomization; and a crash-free render that
iterates a present tile on a layer with a non-empty default pool always
leaves that (tile, layer) with a cached image id. -/
theorem c2_default_cached (w : world) (hit : Int × Int → Bool) (rng : Nat → Nat) :
    (∀ p l i, imageAt w p l = some i →
      imageAt (world.render w hit rng).1 p l = some i) ∧
    (∀ c, w.get_main_camera = some c →
      (world.render w hit rng).2.err = false →
      ∀ p ∈ iterated_points c w.map, ∀ l, l < w.map.num_layers →
        (w.map.tiles p.1 p.2).isSome = true →
        (w.map.default_images l).isEmpty = false →
        (imageAt (world.render w hit rng).1 p l).isSome = true) := by
  constructor
  · intro p l i h
    cases hc : w.get_main_camera with
    | none =>
      rw [render_none w hit rng hc]
      exact h
    | some c =>
      have hmap : (world.render w hit rng).1.map = (render_fold w hit rng c).m := by
        rw [render_some w hit rng c hc]
        dsimp only
        split <;> rfl
      show tilesImageAt (world.render w hit rng).1.map p.1 p.2 l = some i
      rw [hmap]
      unfold render_fold
      exact foldl_inv (tile_step hit rng w.map.num_layers)
        (fun s => tilesImageAt s.m p.1 p.2 l = some i)
        (iterated_points c w.map) _
        (fun s q _ hs => tile_step_images_mono hit rng _ s q p.1 p.2 l i hs) h
  · intro c hc he p hp l hl hpres hdef
    rw [render_some w hit rng c hc] at he
    dsimp only at he
    have hmap : (world.render w hit rng).1.map = (render_fold w hit rng c).m := by
      rw [render_some w hit rng c hc]
      dsimp only
      split <;> rfl
    show (tilesImageAt (world.render w hit rng).1.map p.1 p.2 l).isSome = true
    rw [hmap]
    unfold render_fold at he ⊢
    have post := foldl_establish (tile_step hit rng w.map.num_layers)
      (fun s => (s.m.tiles p.1 p.2).isSome = true ∧
        (s.m.default_images l).isEmpty = false)
      (fun s => s.log.err = true ∨ (tilesImageAt s.m p.1 p.2 l).isSome = true)
      (fun s q hP => ⟨tile_step_presence hit rng _ s q p.1 p.2 hP.1, by
        have hsh := (tile_step_shape hit rng w.map.num_layers s q).2.2.2.2.2.2.1
        rw [hsh]
        exact hP.2⟩)
      (fun s q hP => by
        rcases hP with h1 | h1
        · exact Or.inl (tile_step_err_mono hit rng _ s q h1)
        · right
          obtain ⟨i, hi⟩ := Option.isSome_iff_exists.mp h1
          rw [tile_step_images_mono hit rng _ s q p.1 p.2 l i hi]
          rfl)
      p (fun s hP => tile_step_establish hit rng _ s p l hl hP.1 hP.2)
      (iterated_points c w.map)
      (⟨w.map, w.selected, 0, ⟨[], [], [], false⟩⟩ : render_state) hp ⟨hpres, hdef⟩
    rcases post with h1 | h1
    · rw [h1] at he
      cases he
    · exact h1

/-- C4 (amended): during world::render a (tile, layer) pair is hit-tested
only when its image branch ran; when no layer has a default pool, the
selection can change only to a point whose tile carries an explicit image on
some layer - a tile with nothing to draw is skipped by the `continue` at
world.cpp line 128 before the hit test, so it can never become selected. -/
theorem c4_hit_requires_image (w : world) (hit : Int × Int → Bool) (rng : Nat → Nat)
    (hnd : ∀ l, w.map.default_images l = []) :
    (world.render w hit rng).1.selected = w.selected ∨
      ∃ p, hit p = true ∧ (world.render w hit rng).1.selected = p ∧
        ∃ l, l < w.map.num_layers ∧
          ∃ t, w.map.tiles p.1 p.2 = some t ∧ (t.images l).isSome = true := by
  cases hc : w.get_main_camera with
  | none =>
    rw [render_none w hit rng hc]
    exact Or.inl rfl
  | some c =>
    have hsel : (world.render w hit rng).1.selected = (render_fold w hit rng c).sel := by
      rw [render_some w hit rng c hc]
      dsimp only
      split <;> rfl
    rw [hsel]
    unfold render_fold
    refine (foldl_inv (tile_step hit rng w.map.num_layers)
      (fun s => s.m = w.map ∧ (s.sel = w.selected ∨
        ∃ p, hit p = true ∧ s.sel = p ∧ ∃ l, l < w.map.num_layers ∧
          ∃ t, w.map.tiles p.1 p.2 = some t ∧ (t.images l).isSome = true))
      (iterated_points c w.map) _ (fun s p _ hP => ?_) ⟨rfl, Or.inl rfl⟩).2
    have hnd2 : ∀ l2, s.m.default_images l2 = [] := fun l2 => by
      rw [hP.1]
      exact hnd l2
    obtain ⟨hm2, hsel2⟩ := tile_step_nodefaults hit rng w.map.num_layers s p hnd2
    refine ⟨by rw [hm2, hP.1], ?_⟩
    rcases hsel2 with h1 | h1
    · rw [h1]
      exact hP.2
    · right
      obtain ⟨l, hlL, t, ht, hti⟩ := h1.2.2
      rw [hP.1] at ht
      exact ⟨p, h1.1, h1.2.1, l, hlL, t, ht, hti⟩

/-! ## Concrete instances -/

/-- A hit test that never fires (the mouse is over no tile). -/
def hitF : Int × Int → Bool := fun _ => false

/-- A fixed random source. -/
def rngZ : Nat → Nat := fun _ => 0

/-- A minimal tile map with no tiles and no layers. -/
def trivial_map : tile_map :=
  { map_width := 1, map_height := 1, tile_width := 10, tile_height := 10,
    num_layers := 0, tiles := fun _ _ => none, images := fun _ => none,
    default_images := fun _ => [], selection_image := none }

/-- C1 counterexample map: a 4x4 grid with (empty) tiles everywhere in
bounds. -/
def c1_cex_map : tile_map :=
  { map_width := 4, map_height := 4, tile_width := 10, tile_height := 10,
    num_layers := 0,
    tiles := fun x y =>
      if 0 ≤ x ∧ x < 4 ∧ 0 ≤ y ∧ y < 4 then some ⟨fun _ => none⟩ else none,
    images := fun _ => none, default_images := fun _ => [],
    selection_image := none }

/-- C1 counterexample camera: scrolled one column past the left map edge. -/
def c1_cex_camera : camera :=
  { viewport_x := 0, viewport_y := 0, width := 10, height := 10,
    current_x := -1, current_y := 0, enabled := true }

/-- C1 counterexample world. -/
def c1_cex_world : world :=
  { map := c1_cex_map, cameras := [c1_cex_camera],
    selected := (INT_MAX, INT_MAX), update_called := true }

/-- C1 counterexample: with the camera scrolled to x = -1, world::render
accesses the tile index (-1, 0), outside [0, 4) x [0, 4) - the visible
region is not clamped at the lower end. -/
theorem c1_counterexample :
    ∃ q ∈ (world.render c1_cex_world hitF rngZ).2.accessed,
      ¬ (0 ≤ q.1 ∧ q.1 < (c1_cex_world.map.map_width : Int) ∧
         0 ≤ q.2 ∧ q.2 < (c1_cex_world.map.map_height : Int)) := by
  decide

/-- C1 witness camera, at scroll (0, 0). -/
def c1_wit_camera : camera :=
  { viewport_x := 0, viewport_y := 0, width := 10, height := 10,
    current_x := 0, current_y := 0, enabled := true }

/-- C1 witness world. -/
def c1_wit_world : world :=
  { map := c1_cex_map, cameras := [c1_wit_camera],
    selected := (INT_MAX, INT_MAX), update_called := true }

/-- C1 witness: the amended bounds theorem at a concrete world. -/
theorem c1_witness :
    (world.get_main_camera c1_wit_world = some c1_wit_camera ∧
      0 ≤ c1_wit_camera.current_x ∧ 0 ≤ c1_wit_camera.current_y) ∧
    ∀ q ∈ (world.render c1_wit_world hitF rngZ).2.accessed,
      0 ≤ q.1 ∧ q.1 < (c1_wit_world.map.map_width : Int) ∧
      0 ≤ q.2 ∧ q.2 < (c1_wit_world.map.map_height : Int) :=
  ⟨⟨by decide, by decide, by decide⟩,
    c1_render_in_bounds c1_wit_world hitF rngZ c1_wit_camera (by decide)
      (by decide) (by decide)⟩

/-- C2 witness camera. -/
def c2_wit_camera : camera :=
  { viewport_x := 0, viewport_y := 0, width := 10, height := 10,
    current_x := 0, current_y := 0, enabled := true }

/-- C2 witness map: tile (0,0) carries image id 7 on layer 0 and nothing on
layer 1, whose default pool is [9]. -/
def c2_wit_map : tile_map :=
  { map_width := 1, map_height := 1, tile_width := 10, tile_height := 10,
    num_layers := 2,
    tiles := fun x y => if x = 0 ∧ y = 0 then
        some ⟨fun l => if l = 0 then some 7 else none⟩ else none,
    images := fun i => if i = 7 then some ⟨7⟩ else if i = 9 then some ⟨9⟩ else none,
    default_images := fun l => if l = 1 then [9] else [],
    selection_image := none }

/-- C2 witness world. -/
def c2_wit_world : world :=
  { map := c2_wit_map, cameras := [c2_wit_camera],
    selected := (INT_MAX, INT_MAX), update_called := true }

/-- C2 witness: the caching theorem at a concrete world - the explicit id 7
on layer 0 survives a render, and the crash-free render caches some id at
(0,0) on layer 1. -/
theorem c2_witness :
    (imageAt c2_wit_world (0, 0) 0 = some 7 ∧
      imageAt (world.render c2_wit_world hitF rngZ).1 (0, 0) 0 = some 7) ∧
    ((world.render c2_wit_world hitF rngZ).2.err = false ∧
      (imageAt (world.render c2_wit_world hitF rngZ).1 (0, 0) 1).isSome = true) :=
  ⟨⟨by decide, (c2_default_cached c2_wit_world hitF rngZ).1 (0, 0) 0 7 (by decide)⟩,
    ⟨by decide, (c2_default_cached c2_wit_world hitF rngZ).2 c2_wit_camera (by decide)
      (by decide) (0, 0) (by decide) 1 (by decide) (by decide) (by decide)⟩⟩

/-- C3 counterexample world: only the x component stores the sentinel. -/
def c3_cex_world : world :=
  { map := trivial_map, cameras := [], selected := (INT_MAX, 5),
    update_called := false }

/-- C3 counterexample: with the stored selection (INT_MAX, 5) - only one
component at the sentinel - has_selection() already returns false, although
get_selection() is not the sentinel pair; so "false exactly when the stored
selection equals the sentinel pair" (and in particular "true whenever only
one component equals the sentinel") fails. -/
theorem c3_counterexample :
    ¬ (world.has_selection c3_cex_world = false ↔
        world.get_selection c3_cex_world = (INT_MAX, INT_MAX)) := by
  decide

/-- C3 (amended): has_selection() returns false exactly when EITHER stored
component equals the sentinel (world.cpp lines 203-205 require both to
differ), and reset_selection() always restores the state in which
has_selection() is false and get_selection() is the sentinel pair. -/
theorem c3_selection_amended (w : world) :
    (world.has_selection w = false ↔
      (w.selected.1 = INT_MAX ∨ w.selected.2 = INT_MAX)) ∧
    world.has_selection (world.reset_selection w) = false ∧
    world.get_selection (world.reset_selection w) = (INT_MAX, INT_MAX) := by
  refine ⟨?_, by simp [world.has_selection, world.reset_selection], rfl⟩
  constructor
  · intro h
    by_contra hcon
    push_neg at hcon
    simp [world.has_selection, hcon.1, hcon.2] at h
  · intro h
    rcases h with h | h <;> simp [world.has_selection, h]

/-- C3 witness world, with an in-range selection. -/
def c3_wit_world : world :=
  { map := trivial_map, cameras := [], selected := (3, 4),
    update_called := false }

/-- C3 witness: the amended selection theorem at a concrete world. -/
theorem c3_witness :
    (world.has_selection c3_wit_world = false ↔
      (c3_wit_world.selected.1 = INT_MAX ∨ c3_wit_world.selected.2 = INT_MAX)) ∧
    world.has_selection (world.reset_selection c3_wit_world) = false ∧
    world.get_selection (world.reset_selection c3_wit_world) = (INT_MAX, INT_MAX) :=
  c3_selection_amended c3_wit_world

/-- C4 map: the spec's 4x4 end-to-end scenario, one layer, an explicit image
(id 7) only at tile (2,2), no default pools, no selection image. -/
def c4_map : tile_map :=
  { map_width := 4, map_height := 4, tile_width := 10, tile_height := 10,
    num_layers := 1,
    tiles := fun x y => if 0 ≤ x ∧ x < 4 ∧ 0 ≤ y ∧ y < 4 then
        some ⟨fun l => if l = 0 ∧ x = 2 ∧ y = 2 then some 7 else none⟩ else none,
    images := fun i => if i = 7 then some ⟨7⟩ else none,
    default_images := fun _ => [], selection_image := none }

/-- C4 camera: the viewport covers the whole map at scroll (0, 0). -/
def c4_camera : camera :=
  { viewport_x := 0, viewport_y := 0, width := 40, height := 40,
    current_x := 0, current_y := 0, enabled := true }

/-- C4 world. -/
def c4_world : world :=
  { map := c4_map, cameras := [c4_camera],
    selected := (INT_MAX, INT_MAX), update_called := true }

/-- C4 hit test: the cursor lies inside the diamond of tile (1, 1). -/
def c4_hit : Int × Int → Bool := fun p => p = ((1 : Int), (1 : Int))

/-- C4 counterexample: in the 4x4 one-layer scenario with the cursor over the
empty tile (1,1), that tile is iterated and its hit test would succeed, yet
render returns with the selection still unset: the empty tile was skipped by
`continue` before the hit test, contradicting "every tile iterated ... is
hit-tested ... including tiles that have no image". -/
theorem c4_counterexample :
    c4_hit (1, 1) = true ∧
    ((1 : Int), (1 : Int)) ∈ iterated_points c4_camera c4_world.map ∧
    (world.render c4_world c4_hit rngZ).2.err = false ∧
    (world.render c4_world c4_hit rngZ).1.selected = (INT_MAX, INT_MAX) ∧
    ((INT_MAX, INT_MAX) : Int × Int) ≠ ((1 : Int), (1 : Int)) := by
  decide

/-- C4 witness: the amended theorem at the 4x4 scenario world. -/
theorem c4_witness :
    (∀ l, c4_world.map.default_images l = []) ∧
    ((world.render c4_world c4_hit rngZ).1.selected = c4_world.selected ∨
      ∃ p, c4_hit p = true ∧
        (world.render c4_world c4_hit rngZ).1.selected = p ∧
        ∃ l, l < c4_world.map.num_layers ∧
        ∃ t, c4_world.map.tiles p.1 p.2 = some t ∧ (t.images l).isSome = true) :=
  ⟨fun _ => rfl, c4_hit_requires_image c4_world c4_hit rngZ (fun _ => rfl)⟩

/-- C5 camera: a 13-pixel viewport. -/
def c5_cex_camera : camera :=
  { viewport_x := 0, viewport_y := 0, width := 13, height := 13,
    current_x := 0, current_y := 0, enabled := true }

/-- C5 map: 10-pixel tiles on a large grid (no clamping). -/
def c5_cex_map : tile_map :=
  { map_width := 100, map_height := 100, tile_width := 10, tile_height := 10,
    num_layers := 0, tiles := fun _ _ => none, images := fun _ => none,
    default_images := fun _ => [], selection_image := none }

/-- C5 counterexample: with a 13-pixel viewport and 10-pixel tiles the
quotient (13+10)/(10/2) = 4.6 is fractional; the code truncates, giving
0 + 4 + 1 = 5, while the spec's ceiling formula gives 0 + 5 + 1 = 6. -/
theorem c5_counterexample :
    max_tiles_horiz c5_cex_camera c5_cex_map = 5 ∧
    spec_max_tiles_horiz c5_cex_camera c5_cex_map = 6 := by
  decide

/-- C5 (amended): the maximum iterated row/column is the scroll position plus
the FLOOR of (viewport_dimension + tile_dimension) / (tile_dimension/2), plus
1, clamped to the map bound - the static_cast truncates the quotient, it does
not take its ceiling. -/
theorem c5_max_tiles_amended (c : camera) (m : tile_map)
    (hx : 0 ≤ c.current_x) (hy : 0 ≤ c.current_y)
    (hw : 1 ≤ m.tile_width) (hh : 1 ≤ m.tile_height) :
    max_tiles_horiz c m =
      min (c.current_x.toNat + (2 * (c.width + m.tile_width)) / m.tile_width + 1)
        m.map_width ∧
    max_tiles_vert c m =
      min (c.current_y.toNat + (2 * (c.height + m.tile_height)) / m.tile_height + 1)
        m.map_height := by
  constructor
  · simp only [max_tiles_horiz]
    rw [trunc_formula c.current_x c.width m.tile_width hx hw]
  · simp only [max_tiles_vert]
    rw [trunc_formula c.current_y c.height m.tile_height hy hh]

/-- C5 witness: the amended bound formula at the concrete camera and map. -/
theorem c5_witness :
    (0 ≤ c5_cex_camera.current_x ∧ 0 ≤ c5_cex_camera.current_y ∧
      1 ≤ c5_cex_map.tile_width ∧ 1 ≤ c5_cex_map.tile_height) ∧
    (max_tiles_horiz c5_cex_camera c5_cex_map =
      min (c5_cex_camera.current_x.toNat +
        (2 * (c5_cex_camera.width + c5_cex_map.tile_width)) / c5_cex_map.tile_width + 1)
        c5_cex_map.map_width ∧
     max_tiles_vert c5_cex_camera c5_cex_map =
      min (c5_cex_camera.current_y.toNat +
        (2 * (c5_cex_camera.height + c5_cex_map.tile_height)) / c5_cex_map.tile_height + 1)
        c5_cex_map.map_height) :=
  ⟨⟨by decide, by decide, by decide, by decide⟩,
    c5_max_tiles_amended c5_cex_camera c5_cex_map (by decide) (by decide)
      (by decide) (by decide)⟩

/-- C8 map: the tile grid lookup yields nothing, while layer 0 has the
non-empty default pool [5] with a valid registry entry. -/
def c8_map : tile_map :=
  { map_width := 1, map_height := 1, tile_width := 10, tile_height := 10,
    num_layers := 1, tiles := fun _ _ => none,
    images := fun i => if i = 5 then some ⟨5⟩ else none,
    default_images := fun _ => [5], selection_image := none }

/-- C8 camera. -/
def c8_camera : camera :=
  { viewport_x := 0, viewport_y := 0, width := 10, height := 10,
    current_x := 0, current_y := 0, enabled := true }

/-- C8 world. -/
def c8_world : world :=
  { map := c8_map, cameras := [c8_camera],
    selected := (INT_MAX, INT_MAX), update_called := true }

/-- C8: evaluating world::render at the failing input - get_tile yields
nothing at (0,0) while layer 0 has a non-empty default pool - the
default-image branch is taken (its condition at world.cpp line 119 explicitly
admits a null current_tile) and `current_tile->set_image_id(...)` at line 124
dereferences the null pointer: the model's crash flag is raised instead of
the layer being skipped without error as the claim requires. -/
theorem c8_null_tile_crash :
    (world.render c8_world hitF rngZ).2.err = true := by
  decide

/-- C9 counterexample world: no cameras at all, update_called still set. -/
def c9_cex_world : world :=
  { map := trivial_map, cameras := [], selected := (INT_MAX, INT_MAX),
    update_called := true }

/-- C9 counterexample: without an enabled main camera, world::render returns
at line 75 before reaching line 193, so update_called remains true - the
claim that the flag is false whenever render returns fails for the no-camera
case it explicitly includes. -/
theorem c9_counterexample :
    world.get_main_camera c9_cex_world = none ∧
    (world.render c9_cex_world hitF rngZ).1.update_called = true := by
  decide

/-- C9 witness camera. -/
def c9_wit_camera : camera :=
  { viewport_x := 0, viewport_y := 0, width := 10, height := 10,
    current_x := 0, current_y := 0, enabled := true }

/-- C9 witness world. -/
def c9_wit_world : world :=
  { map := trivial_map, cameras := [c9_wit_camera],
    selected := (INT_MAX, INT_MAX), update_called := true }

/-- C9 witness: the amended theorem at a concrete world with a camera. -/
theorem c9_witness :
    (world.get_main_camera c9_wit_world = some c9_wit_camera ∧
      (world.render c9_wit_world hitF rngZ).2.err = false) ∧
    (world.render c9_wit_world hitF rngZ).1.update_called = false :=
  ⟨⟨by decide, by decide⟩,
    c9_update_cleared c9_wit_world hitF rngZ c9_wit_camera (by decide) (by decide)⟩

/-- C10 witness camera. -/
def c10_wit_camera : camera :=
  { viewport_x := 0, viewport_y := 0, width := 10, height := 10,
    current_x := 0, current_y := 0, enabled := true }

/-- C10 witness world, with a pre-existing selection. -/
def c10_wit_world : world :=
  { map := trivial_map, cameras := [c10_wit_camera], selected := (2, 2),
    update_called := true }

/-- C10 witness: with a hit test that never fires, the concrete render
preserves the selection, and the sentinel is never written. -/
theorem c10_witness :
    ((∀ p, hitF p = false) ∧ (c10_wit_world.map.map_width : Int) ≤ INT_MAX) ∧
    (world.render c10_wit_world hitF rngZ).1.selected = c10_wit_world.selected ∧
    ((world.render c10_wit_world hitF rngZ).1.selected = c10_wit_world.selected ∨
      ∃ c p, world.get_main_camera c10_wit_world = some c ∧
        p ∈ iterated_points c c10_wit_world.map ∧
        hitF p = true ∧ (world.render c10_wit_world hitF rngZ).1.selected = p ∧
        p ≠ ((INT_MAX, INT_MAX) : Int × Int)) :=
  ⟨⟨fun _ => rfl, by decide⟩,
    (c10_render_selection c10_wit_world hitF rngZ).1 (fun _ => rfl),
    (c10_render_selection c10_wit_world hitF rngZ).2 (by decide)⟩

end Iso
